import Mathlib

/-!
Shallow embedding of `make_bias_dielectric_workflow.py`, a script that reads
Materials Project ids from a CSV file, fetches the structure of each material,
and writes VASP input decks for a zero-field reference calculation plus a
sweep of finite electric fields along the crystallographic c-axis.

Python dictionaries of INCAR settings are modelled as association lists with
last-occurrence-wins lookup (the semantics of a Python dict literal built by
spreading); the CSV file is modelled as a stream of events (a parsed row, or
an exception raised by `open`/the reader); the remote API call is modelled
through an oracle that may fail, and the blanket `except` of the loop as catching
that failure.  Real-vector arithmetic (unit-vector normalisation with numpy)
is modelled over `EuclideanSpace ℝ (Fin 3)`.
-/

namespace BiasWorkflow

/-! ## INCAR values and dictionaries -/

/-- A value that can appear in an INCAR settings dictionary: the source stores
booleans, integers, decimal literals (modelled as rationals), strings, and —
for `EFIELD_PEAD` — a 3-vector of real components. -/
inductive IncarVal where
  | b (x : Bool)
  | i (x : Int)
  | q (x : ℚ)
  | s (x : String)
  | vec (x : EuclideanSpace ℝ (Fin 3))

/-- Lookup in a Python-dict-as-association-list: later entries override
earlier ones, as in a dict literal `{**base, k: v}`. -/
def dget (l : List (String × IncarVal)) (k : String) : Option IncarVal :=
  l.foldl (fun acc p => if p.1 = k then some p.2 else acc) none

/-- The fixed common INCAR dictionary of the script (source lines 79–96). -/
def common_incar : List (String × IncarVal) :=
  [("LCALCEPS", .b false),
   ("LCALCPOL", .b true),
   ("ISMEAR", .i 0),
   ("SIGMA", .q (5/100)),
   ("EDIFF", .q (1/1000000)),
   ("PREC", .s "Accurate"),
   ("ADDGRID", .b true),
   ("LREAL", .b false),
   ("LCHARG", .b false),
   ("LWAVE", .b false),
   ("ENCUT", .i 520),
   ("NSW", .i 0),
   ("IBRION", .i (-1)),
   ("ISYM", .i 0),
   ("SYMPREC", .q (1/100000000)),
   ("LASPH", .b true)]

/-- `zf_incar = {**common_incar}` — a fresh copy of the common dictionary,
with no extra keys (source line 149). -/
def zf_incar : List (String × IncarVal) := common_incar ++ []

/-- `field_incar = {**common_incar, "EFIELD_PEAD": evec, "SKIP_EDOTP": True}`
(source line 172), parameterised by the already-computed field vector. -/
def field_incar (evec : EuclideanSpace ℝ (Fin 3)) : List (String × IncarVal) :=
  common_incar ++ [("EFIELD_PEAD", .vec evec), ("SKIP_EDOTP", .b true)]

/-! ## CSV reading -/

/-- One parsed CSV row, as `csv.DictReader` yields it: a finite map from
header names to cell strings, modelled as an association list. -/
structure CsvRow where
  cells : List (String × String)

/-- The membership test `material_id in row`. -/
def CsvRow.hasCol (r : CsvRow) (k : String) : Bool :=
  (r.cells.lookup k).isSome

/-- The cell access `row[material_id]`, defaulting to `""` when absent (only
ever used after the membership test). -/
def CsvRow.getCol (r : CsvRow) (k : String) : String :=
  (r.cells.lookup k).getD ""

/-- `str.strip()` — remove leading and trailing whitespace. -/
def pstrip (s : String) : String := s.trim

/-- What reading the CSV file produces, event by event: either the reader
yields a parsed row, or an exception is raised (file missing, decode error,
malformed row, ...). -/
inductive CsvEvent where
  | row (r : CsvRow)
  | err

/-- The body of the reader loop for one row: append the stripped
`material_id` cell when the column is present and its stripped value is
non-empty (source lines 36–38). -/
def csvStep (acc : List String) (r : CsvRow) : List String :=
  if r.hasCol "material_id" ∧ pstrip (r.getCol "material_id") ≠ "" then
    acc ++ [pstrip (r.getCol "material_id")]
  else acc

/-- `read_mp_ids_from_csv` (source lines 20–48): iterate over the stream of
events; an exception anywhere is caught by the `except` clauses, and the ids
accumulated so far are returned. -/
def read_mp_ids_from_csv (events : List CsvEvent) : List String :=
  go [] events
where
  /-- Process the remaining events with the accumulator `acc`. -/
  go (acc : List String) : List CsvEvent → List String
    | [] => acc
    | .row r :: rest => go (csvStep acc r) rest
    | .err :: _ => acc

/-- The value claim C7 describes: stripped `material_id` cells of the rows
that have the column with a non-whitespace value, in file order. -/
def csvIdsSpec (rows : List CsvRow) : List String :=
  rows.filterMap (fun r =>
    if r.hasCol "material_id" ∧ pstrip (r.getCol "material_id") ≠ "" then
      some (pstrip (r.getCol "material_id"))
    else none)

/-! ## API key lookup -/

/-- Python `a or b` specialised to `os.getenv` results: the left operand when
it is a non-empty string, otherwise the right operand. -/
def pyOrStr (a b : Option String) : Option String :=
  match a with
  | some s => if s = "" then b else some s
  | none => b

/-- Source lines 14–16: `api_key = os.getenv("MP_API_KEY") or
os.getenv("PMG_MAPI_KEY")`, then `if not api_key: raise RuntimeError(...)`.
The environment is a partial map from variable names to values. -/
def lookup_api_key (env : String → Option String) : Except String String :=
  match pyOrStr (env "MP_API_KEY") (env "PMG_MAPI_KEY") with
  | some s =>
      if s = "" then .error "Set MP_API_KEY (or PMG_MAPI_KEY) in your environment."
      else .ok s
  | none => .error "Set MP_API_KEY (or PMG_MAPI_KEY) in your environment."

/-! ## Field vectors along the c-axis -/

/-- The part of a pymatgen `Structure` the script uses: the third row of the
lattice matrix, `structure.lattice.matrix[2]` — the crystallographic c-axis. -/
structure MpStructure where
  latC : EuclideanSpace ℝ (Fin 3)

/-- `c_hat = structure.lattice.matrix[2] / np.linalg.norm(...)`
(source line 161). -/
noncomputable def c_hat (c : EuclideanSpace ℝ (Fin 3)) : EuclideanSpace ℝ (Fin 3) :=
  ‖c‖⁻¹ • c

/-- `evec = (c_hat * E)` (source line 167): the applied field vector for
magnitude `E`. -/
noncomputable def evec (c : EuclideanSpace ℝ (Fin 3)) (E : ℝ) : EuclideanSpace ℝ (Fin 3) :=
  E • c_hat c

/-! ## Per-material directory tree -/

/-- Left-pad a digit string with zeros to the given width. -/
def padZeros (w : Nat) (s : String) : String :=
  String.mk (List.replicate (w - s.length) '0') ++ s

/-- Fixed-point rendering with four decimals, modelling `f"{E:.4f}"` for the
decimal magnitudes the script uses (all exact multiples of 10⁻⁴, where
Python float formatting and exact rational rounding agree). -/
def fmt4 (E : ℚ) : String :=
  let n : Int := round (E * 10000)
  let a := n.natAbs
  (if n < 0 then "-" else "") ++ toString (a / 10000) ++ "." ++
    padZeros 4 (toString (a % 10000))

/-- `tag = f"E_{E:.4f}_along_001"` (source line 168). -/
def tagOf (E : ℚ) : String := "E_" ++ fmt4 E ++ "_along_001"

/-- One `write_input` invocation: the subdirectory (relative to the
root directory of the material) and the INCAR settings dictionary passed to the
`MPStaticSet` being written. -/
structure WriteCall where
  sub : String
  incar : List (String × IncarVal)

/-- Everything written for one successfully processed material. -/
structure MaterialOutput where
  root : String
  writes : List WriteCall

/-- The body of the per-material loop after the structure has been fetched
(source lines 139–181): create `finite_field_sweep_<mp_id>`, write the
zero-field deck into `E0_ref` with a fresh copy of `common_incar`, then for
each magnitude `E` write a deck into `E_<E:.4f>_along_001` whose dictionary
adds `EFIELD_PEAD = E * c_hat` and `SKIP_EDOTP = True`.  Field magnitudes are
carried as the rationals standing for the decimal literals of the script. -/
noncomputable def processMaterial (s : MpStructure) (mp_id : String)
    (E_mags : List ℚ) : MaterialOutput :=
  { root := "finite_field_sweep_" ++ mp_id,
    writes :=
      ⟨"E0_ref", zf_incar⟩ ::
        E_mags.map (fun E => ⟨tagOf E, field_incar (evec s.latC (E : ℝ))⟩) }

/-- One whole iteration of the `try` block of the loop: fetch the structure from
the remote database (the fallible oracle `fetch`, modelling
`get_structure_by_material_id` and any other failure of the body), then
build the directory tree of the material. -/
noncomputable def processOne (fetch : String → Except String MpStructure)
    (E_mags : List ℚ) (mp_id : String) : Except String MaterialOutput :=
  (fetch mp_id).map (fun s => processMaterial s mp_id E_mags)

/-! ## The catch-and-count loop -/

/-- The loop counters and accumulated outputs (source lines 125–186). -/
structure RunState where
  success_count : Nat
  fail_count : Nat
  outputs : List MaterialOutput

/-- One iteration of `for i, mp_id in enumerate(materials_to_process, 1)`:
run the body; on success count a success and keep the outputs, on any
exception count a failure and continue.  The body is abstract, so the
exception may have been raised anywhere inside it (API fetch, directory
creation, or file writing). -/
def loopStep (body : String → Except String MaterialOutput)
    (st : RunState) (mp_id : String) : RunState :=
  match body mp_id with
  | .ok out => { st with
      success_count := st.success_count + 1,
      outputs := st.outputs ++ [out] }
  | .error _ => { st with fail_count := st.fail_count + 1 }

/-- `materials_to_process = mp_ids[:max_materials]` (source line 122). -/
def materials_to_process (mp_ids : List String) (max_materials : Nat) :
    List String :=
  mp_ids.take max_materials

/-- `create_field_sweep_for_all_materials` (source lines 108–191), with the
loop body abstracted: the early return on an empty id list, the truncation
to `max_materials`, and the counting loop. -/
def create_field_sweep_for_all_materials
    (body : String → Except String MaterialOutput)
    (mp_ids : List String) (max_materials : Nat) : RunState :=
  if mp_ids = [] then ⟨0, 0, []⟩
  else (materials_to_process mp_ids max_materials).foldl (loopStep body) ⟨0, 0, []⟩

/-- `MAX_MATERIALS = 256` (source line 194). -/
def MAX_MATERIALS : Nat := 256

/-- `E_FIELD_MAGNITUDES = [-0.003, -0.001, 0.001, 0.003]` (source line 195). -/
def E_FIELD_MAGNITUDES : List ℚ :=
  [-(3/1000), -(1/1000), 1/1000, 3/1000]

/-- The script end to end: check the API key first (raising before the CSV
is read or anything is written), then read the ids and run the sweep. -/
noncomputable def runScript (env : String → Option String)
    (fetch : String → Except String MpStructure)
    (events : List CsvEvent) : Except String RunState :=
  match lookup_api_key env with
  | .error e => .error e
  | .ok _ =>
      .ok (create_field_sweep_for_all_materials
        (processOne fetch E_FIELD_MAGNITUDES)
        (read_mp_ids_from_csv events) MAX_MATERIALS)

/-- Whether the loop body finishes a given id without raising. -/
def bodyOk (body : String → Except String MaterialOutput) (mp_id : String) : Bool :=
  match body mp_id with
  | .ok _ => true
  | .error _ => false

/-! ## Dictionary lookup lemmas -/

theorem dget_nil (k : String) : dget [] k = none := rfl

theorem dget_foldl (l : List (String × IncarVal)) (k : String)
    (acc : Option IncarVal) :
    l.foldl (fun acc p => if p.1 = k then some p.2 else acc) acc =
      match dget l k with
      | some v => some v
      | none => acc := by
  induction l generalizing acc with
  | nil => simp [dget]
  | cons p t ih =>
    simp only [dget, List.foldl_cons] at ih ⊢
    by_cases hp : p.1 = k
    · simp only [if_pos hp]
      rw [ih (some p.2)]
      rcases h : t.foldl (fun acc p => if p.1 = k then some p.2 else acc) none
        with _ | v <;> rw [h]
    · simp only [if_neg hp]
      exact ih acc

/-- Appending override entries: a key found among the overrides wins,
otherwise the base dictionary answers. -/
theorem dget_append (a b : List (String × IncarVal)) (k : String) :
    dget (a ++ b) k =
      match dget b k with
      | some v => some v
      | none => dget a k := by
  show (a ++ b).foldl (fun acc p => if p.1 = k then some p.2 else acc) none =
    match dget b k with
    | some v => some v
    | none => dget a k
  rw [List.foldl_append]
  exact dget_foldl b k (dget a k)

/-! ## CSV reader theorems -/

/-- Processing a block of well-parsed rows extends the accumulator by
exactly the ids `csvIdsSpec` selects, then continues with the rest of the
event stream. -/
theorem csv_go_append (rows : List CsvRow) (rest : List CsvEvent)
    (acc : List String) :
    read_mp_ids_from_csv.go acc (rows.map CsvEvent.row ++ rest) =
      read_mp_ids_from_csv.go (acc ++ csvIdsSpec rows) rest := by
  induction rows generalizing acc with
  | nil => simp [csvIdsSpec]
  | cons r rows ih =>
    show read_mp_ids_from_csv.go (csvStep acc r)
        (List.map CsvEvent.row rows ++ rest) = _
    rw [ih]
    have harg : csvStep acc r ++ csvIdsSpec rows = acc ++ csvIdsSpec (r :: rows) := by
      simp only [csvStep, csvIdsSpec, List.filterMap_cons]
      by_cases hc : r.hasCol "material_id" ∧ pstrip (r.getCol "material_id") ≠ ""
      · rw [if_pos hc, if_pos hc]
        simp
      · rw [if_neg hc, if_neg hc]
    rw [harg]

/-- C7: on a CSV file that parses without error, `read_mp_ids_from_csv`
returns, in file order, exactly the stripped `material_id` cells of the rows
where that column is present with a non-whitespace value; rows lacking the
column or holding only whitespace contribute nothing. -/
theorem read_csv_returns_ids (rows : List CsvRow) :
    read_mp_ids_from_csv (rows.map CsvEvent.row) = csvIdsSpec rows := by
  have h := csv_go_append rows [] []
  simpa [read_mp_ids_from_csv, read_mp_ids_from_csv.go] using h

/-- C9: when an exception interrupts the read — a missing file is the stream
`CsvEvent.err :: post` with no prior rows — `read_mp_ids_from_csv` catches it
and returns exactly the ids accumulated from the rows seen before the error;
no exception reaches the caller. -/
theorem read_csv_catches_errors (rows : List CsvRow) (post : List CsvEvent) :
    read_mp_ids_from_csv (rows.map CsvEvent.row ++ CsvEvent.err :: post) =
      csvIdsSpec rows := by
  have h := csv_go_append rows (CsvEvent.err :: post) []
  simpa [read_mp_ids_from_csv, read_mp_ids_from_csv.go] using h

/-! ## API key theorem -/

/-- C8: with neither `MP_API_KEY` nor `PMG_MAPI_KEY` holding a non-empty
value the script stops with the `RuntimeError` before reading the CSV or
producing any run state; otherwise the key used is the first non-empty of
the two, `MP_API_KEY` taking precedence. -/
theorem api_key_startup_check (env : String → Option String)
    (fetch : String → Except String MpStructure) (events : List CsvEvent) :
    ((env "MP_API_KEY" = none ∨ env "MP_API_KEY" = some "") →
     (env "PMG_MAPI_KEY" = none ∨ env "PMG_MAPI_KEY" = some "") →
      runScript env fetch events =
        .error "Set MP_API_KEY (or PMG_MAPI_KEY) in your environment.") ∧
    (∀ s, s ≠ "" → env "MP_API_KEY" = some s →
      lookup_api_key env = .ok s) ∧
    (∀ s, s ≠ "" →
      (env "MP_API_KEY" = none ∨ env "MP_API_KEY" = some "") →
      env "PMG_MAPI_KEY" = some s →
      lookup_api_key env = .ok s) := by
  refine ⟨fun h1 h2 => ?_, fun s hs hmp => ?_, fun s hs h1 hpmg => ?_⟩
  · have hk : lookup_api_key env =
        .error "Set MP_API_KEY (or PMG_MAPI_KEY) in your environment." := by
      rcases h1 with h1 | h1 <;> rcases h2 with h2 | h2 <;>
        simp [lookup_api_key, pyOrStr, h1, h2]
    simp [runScript, hk]
  · simp [lookup_api_key, pyOrStr, hmp, hs]
  · rcases h1 with h1 | h1 <;>
      simp [lookup_api_key, pyOrStr, h1, hpmg, hs]

/-- Witness for C8: with an empty environment the script is the
`RuntimeError`, at a concrete fetch oracle and CSV stream. -/
theorem api_key_startup_check_witness :
    runScript (fun _ => none) (fun _ => .error "offline") [] =
      .error "Set MP_API_KEY (or PMG_MAPI_KEY) in your environment." :=
  (api_key_startup_check (fun _ => none) (fun _ => .error "offline") []).1
    (Or.inl rfl) (Or.inl rfl)

/-! ## INCAR dictionary theorems -/

/-- C2: the zero-field dictionary is the common dictionary unchanged (and in
particular has no `EFIELD_PEAD` key), while each field dictionary is the
common dictionary with exactly the two overrides `EFIELD_PEAD = evec` and
`SKIP_EDOTP = True`; every other key answers as in the common dictionary. -/
theorem incar_dicts_correct :
    (∀ k, dget zf_incar k = dget common_incar k) ∧
    dget zf_incar "EFIELD_PEAD" = none ∧
    ∀ ev, dget (field_incar ev) "EFIELD_PEAD" = some (.vec ev) ∧
      dget (field_incar ev) "SKIP_EDOTP" = some (.b true) ∧
      ∀ k, k ≠ "EFIELD_PEAD" → k ≠ "SKIP_EDOTP" →
        dget (field_incar ev) k = dget common_incar k := by
  refine ⟨fun k => by rw [zf_incar, List.append_nil], rfl,
    fun ev => ⟨rfl, rfl, fun k hk1 hk2 => ?_⟩⟩
  have hfi : field_incar ev =
      common_incar ++ [("EFIELD_PEAD", .vec ev), ("SKIP_EDOTP", .b true)] := rfl
  rw [hfi, dget_append]
  have hov : dget [("EFIELD_PEAD", IncarVal.vec ev),
      ("SKIP_EDOTP", IncarVal.b true)] k = none := by
    simp [dget, Ne.symm hk1, Ne.symm hk2]
  rw [hov]

/-- Witness for C2: a key untouched by the overrides — `ENCUT` — answers in
the field dictionary exactly as in the common dictionary. -/
theorem incar_dicts_correct_witness :
    dget (field_incar 0) "ENCUT" = dget common_incar "ENCUT" :=
  (incar_dicts_correct.2.2 0).2.2 "ENCUT" (by decide) (by decide)

/-! ## Field-vector theorems -/

/-- C3: for a non-zero c-axis vector, `c_hat` has Euclidean norm 1, and each
applied field vector `evec c E = E • c_hat` has norm `|E|` and is the scalar
multiple `(E / ‖c‖) • c` of the c-axis — parallel for positive `E`,
anti-parallel for negative `E`. -/
theorem c_hat_unit_and_scaling (c : EuclideanSpace ℝ (Fin 3)) (h : c ≠ 0) :
    ‖c_hat c‖ = 1 ∧
    ∀ E : ℝ, evec c E = E • c_hat c ∧ ‖evec c E‖ = |E| ∧
      evec c E = (E / ‖c‖) • c := by
  have hn : ‖c‖ ≠ 0 := norm_ne_zero_iff.mpr h
  have h1 : ‖c_hat c‖ = 1 := by
    rw [c_hat, norm_smul, norm_inv, norm_norm, inv_mul_cancel₀ hn]
  refine ⟨h1, fun E => ⟨rfl, ?_, ?_⟩⟩
  · rw [evec, norm_smul, h1, mul_one, Real.norm_eq_abs]
  · rw [evec, c_hat, smul_smul, div_eq_mul_inv]

/-- Witness for C3: the unit vector of the concrete c-axis `(0, 0, 1)` has
norm 1. -/
theorem c_hat_unit_and_scaling_witness :
    ‖c_hat (EuclideanSpace.single 2 (1 : ℝ))‖ = 1 :=
  (c_hat_unit_and_scaling (EuclideanSpace.single 2 (1 : ℝ)) (by
    intro h
    have h2 := congrArg norm h
    rw [EuclideanSpace.norm_single, norm_zero, norm_one] at h2
    exact one_ne_zero h2)).1

/-! ## Directory-tree theorems -/

/-- No field-sweep tag collides with the zero-field directory name: the two
differ already in length. -/
theorem tagOf_ne_E0_ref (E : ℚ) : tagOf E ≠ "E0_ref" := by
  intro h
  have h2 := congrArg String.length h
  rw [tagOf, String.length_append, String.length_append] at h2
  have e1 : "E_".length = 2 := rfl
  have e2 : "_along_001".length = 10 := rfl
  have e3 : "E0_ref".length = 6 := rfl
  rw [e1, e2, e3] at h2
  omega

/-- C1: each successfully processed material gets the root directory
`finite_field_sweep_<mp_id>` holding exactly one `E0_ref` directory plus one
`E_<E:.4f>_along_001` directory per entry of `E_mags`, and every applied
field vector is a scalar multiple of the third lattice vector of the structure. -/
theorem directory_tree_correct (s : MpStructure) (mp_id : String)
    (E_mags : List ℚ) :
    (processMaterial s mp_id E_mags).root = "finite_field_sweep_" ++ mp_id ∧
    (processMaterial s mp_id E_mags).writes.map WriteCall.sub =
      "E0_ref" :: E_mags.map tagOf ∧
    ((processMaterial s mp_id E_mags).writes.map WriteCall.sub).count "E0_ref"
      = 1 ∧
    ∀ E ∈ E_mags, ∃ t : ℝ, evec s.latC (E : ℝ) = t • s.latC := by
  have hmap : (processMaterial s mp_id E_mags).writes.map WriteCall.sub =
      "E0_ref" :: E_mags.map tagOf := by
    simp [processMaterial]
  refine ⟨rfl, hmap, ?_, fun E _ => ⟨(E : ℝ) * ‖s.latC‖⁻¹, ?_⟩⟩
  · rw [hmap, List.count_cons_self]
    have hz : (E_mags.map tagOf).count "E0_ref" = 0 := by
      rw [List.count_eq_zero]
      intro hmem
      rcases List.mem_map.mp hmem with ⟨E, _, htag⟩
      exact tagOf_ne_E0_ref E htag
    rw [hz]
  · rw [evec, c_hat, smul_smul]

/-- Witness for C1: at a concrete structure and the configured magnitude
list, the field vector for the magnitude 0.001 lies along the c-axis. -/
theorem directory_tree_correct_witness :
    ∃ t : ℝ, evec (MpStructure.mk 0).latC ((1/1000 : ℚ) : ℝ) =
      t • (MpStructure.mk 0).latC :=
  (directory_tree_correct ⟨0⟩ "mp-1" E_FIELD_MAGNITUDES).2.2.2
    (1/1000) (by norm_num [E_FIELD_MAGNITUDES])

/-! ## Loop theorems -/

/-- Counterexample to C4: with 257 ids in the CSV, the list the loop
iterates over is not the full list — `mp_ids[:max_materials]` drops the
257th id, since `MAX_MATERIALS = 256`. -/
theorem loop_iterates_full_list_counterexample :
    materials_to_process (List.replicate 257 "mp-1") MAX_MATERIALS ≠
      List.replicate 257 "mp-1" := by
  intro h
  have h2 := congrArg List.length h
  simp only [materials_to_process, MAX_MATERIALS, List.length_take,
    List.length_replicate] at h2
  omega

/-- C4 (amended): the loop iterates over the first
`min (length mp_ids) MAX_MATERIALS` ids read from the CSV — the full list
exactly when it has at most `MAX_MATERIALS = 256` entries; later ids are
never attempted. -/
theorem loop_iterates_truncated_list (mp_ids : List String) :
    materials_to_process mp_ids MAX_MATERIALS = mp_ids.take 256 ∧
    (mp_ids.length ≤ 256 →
      materials_to_process mp_ids MAX_MATERIALS = mp_ids) := by
  refine ⟨rfl, fun h => ?_⟩
  exact List.take_of_length_le h

/-- Witness for C4 (amended): a two-id CSV is processed in full. -/
theorem loop_iterates_truncated_list_witness :
    materials_to_process ["mp-149", "mp-510"] MAX_MATERIALS =
      ["mp-149", "mp-510"] :=
  (loop_iterates_truncated_list ["mp-149", "mp-510"]).2 (by decide)

/-- C5: a material processed without an exception triggers exactly
`1 + len(E_mags)` invocations of `write_input` — five with the four field
magnitudes the script configures. -/
theorem write_input_count (fetch : String → Except String MpStructure)
    (E_mags : List ℚ) (mp_id : String) (out : MaterialOutput)
    (h : processOne fetch E_mags mp_id = .ok out) :
    out.writes.length = 1 + E_mags.length ∧
    (E_mags = E_FIELD_MAGNITUDES → out.writes.length = 5) := by
  rcases hf : fetch mp_id with e | s
  · rw [processOne, hf] at h
    cases (show Except.error e = Except.ok out from h)
  · rw [processOne, hf] at h
    have h2 : Except.ok (processMaterial s mp_id E_mags) = Except.ok out := h
    injection h2 with h3
    subst h3
    constructor
    · simp [processMaterial, Nat.add_comm]
    · intro he
      subst he
      rfl

/-- Witness for C5: a concrete fetch oracle and the configured magnitudes
give five write calls. -/
theorem write_input_count_witness :
    (processMaterial ⟨0⟩ "mp-1" E_FIELD_MAGNITUDES).writes.length = 5 :=
  (write_input_count (fun _ => .ok ⟨0⟩) E_FIELD_MAGNITUDES "mp-1"
    (processMaterial ⟨0⟩ "mp-1" E_FIELD_MAGNITUDES) rfl).2 rfl

/-- Success counter after folding the loop step over a list of ids. -/
theorem foldl_loopStep_success (body : String → Except String MaterialOutput)
    (l : List String) (st : RunState) :
    (l.foldl (loopStep body) st).success_count =
      st.success_count + l.countP (bodyOk body) := by
  induction l generalizing st with
  | nil => simp
  | cons a l ih =>
    rw [List.foldl_cons, ih, List.countP_cons]
    rcases hb : body a with e | out
    · simp [loopStep, hb, bodyOk]
    · simp only [loopStep, hb, bodyOk]
      simp
      omega

/-- Failure counter after folding the loop step over a list of ids. -/
theorem foldl_loopStep_fail (body : String → Except String MaterialOutput)
    (l : List String) (st : RunState) :
    (l.foldl (loopStep body) st).fail_count =
      st.fail_count + l.countP (fun id => !(bodyOk body id)) := by
  induction l generalizing st with
  | nil => simp
  | cons a l ih =>
    rw [List.foldl_cons, ih, List.countP_cons]
    rcases hb : body a with e | out
    · simp only [loopStep, hb, bodyOk]
      simp
      omega
    · simp [loopStep, hb, bodyOk]

/-- Accumulated outputs after folding the loop step over a list of ids. -/
theorem foldl_loopStep_outputs (body : String → Except String MaterialOutput)
    (l : List String) (st : RunState) :
    (l.foldl (loopStep body) st).outputs =
      st.outputs ++ l.filterMap (fun id => (body id).toOption) := by
  induction l generalizing st with
  | nil => simp
  | cons a l ih =>
    rw [List.foldl_cons, ih, List.filterMap_cons]
    rcases hb : body a with e | out <;>
      simp [loopStep, hb, Except.toOption]

/-- C6: whatever the loop body does — succeed or raise anywhere inside —
the run counts each processed id exactly once (successes as `bodyOk`,
failures otherwise, summing to the number of processed ids) and keeps the
outputs of every succeeding material, so one failure never aborts the rest
of the loop. -/
theorem loop_catches_and_counts (body : String → Except String MaterialOutput)
    (mp_ids : List String) (maxm : Nat) :
    (create_field_sweep_for_all_materials body mp_ids maxm).success_count =
      (materials_to_process mp_ids maxm).countP (bodyOk body) ∧
    (create_field_sweep_for_all_materials body mp_ids maxm).fail_count =
      (materials_to_process mp_ids maxm).countP
        (fun id => !(bodyOk body id)) ∧
    (create_field_sweep_for_all_materials body mp_ids maxm).success_count +
      (create_field_sweep_for_all_materials body mp_ids maxm).fail_count =
      (materials_to_process mp_ids maxm).length ∧
    (create_field_sweep_for_all_materials body mp_ids maxm).outputs =
      (materials_to_process mp_ids maxm).filterMap
        (fun id => (body id).toOption) := by
  have hsum : ∀ l : List String,
      l.countP (bodyOk body) + l.countP (fun id => !(bodyOk body id)) =
        l.length := by
    intro l
    have h := List.length_eq_countP_add_countP (bodyOk body) l
    have hconv : (fun a => decide ¬(bodyOk body a = true)) =
        (fun a => !(bodyOk body a)) := by
      funext a
      cases bodyOk body a <;> simp
    rw [hconv] at h
    omega
  by_cases he : mp_ids = []
  · subst he
    simp [create_field_sweep_for_all_materials, materials_to_process]
  · rw [create_field_sweep_for_all_materials, if_neg he]
    simp only [foldl_loopStep_success, foldl_loopStep_fail,
      foldl_loopStep_outputs]
    refine ⟨by simp, by simp, ?_, by simp⟩
    simpa using hsum (materials_to_process mp_ids maxm)

/-- C10: however many materials and magnitudes are processed, every
zero-field dictionary among the outputs of the run is the pristine common dictionary
— still 16 pairs, with neither override present — and every field-directory
dictionary is a fresh copy extended by the two overrides; no override leaks
anywhere else. -/
theorem common_incar_not_mutated (fetch : String → Except String MpStructure)
    (mp_ids : List String) (maxm : Nat) (E_mags : List ℚ) :
    common_incar.length = 16 ∧
    ∀ o ∈ (create_field_sweep_for_all_materials
        (processOne fetch E_mags) mp_ids maxm).outputs,
      ∀ w ∈ o.writes,
        (w.sub = "E0_ref" →
          w.incar = common_incar ∧
          dget w.incar "EFIELD_PEAD" = none ∧
          dget w.incar "SKIP_EDOTP" = none) ∧
        (w.sub ≠ "E0_ref" → ∃ ev, w.incar = field_incar ev) := by
  refine ⟨rfl, fun o ho w hw => ?_⟩
  have houts := foldl_loopStep_outputs (processOne fetch E_mags)
    (materials_to_process mp_ids maxm) ⟨0, 0, []⟩
  have ho2 : o ∈ (materials_to_process mp_ids maxm).filterMap
      (fun id => (processOne fetch E_mags id).toOption) := by
    by_cases he : mp_ids = []
    · rw [create_field_sweep_for_all_materials, if_pos he] at ho
      cases ho
    · rw [create_field_sweep_for_all_materials, if_neg he, houts] at ho
      simpa using ho
  rcases List.mem_filterMap.mp ho2 with ⟨id, _, hid⟩
  rcases hf : fetch id with e | s
  · rw [processOne, hf] at hid
    cases hid
  · rw [processOne, hf] at hid
    have hid2 : some (processMaterial s id E_mags) = some o := hid
    injection hid2 with hid3
    subst hid3
    rw [processMaterial] at hw
    rcases List.mem_cons.mp hw with hw | hw
    · subst hw
      refine ⟨fun _ => ⟨List.append_nil _, rfl, rfl⟩, fun hne => absurd rfl hne⟩
    · rcases List.mem_map.mp hw with ⟨E, _, hE⟩
      subst hE
      exact ⟨fun hsub => absurd hsub (tagOf_ne_E0_ref E),
        fun _ => ⟨evec s.latC (E : ℝ), rfl⟩⟩

/-- Witness for C10: in a concrete one-material run, the zero-field write
carries the untouched common dictionary with no trace of either override. -/
theorem common_incar_not_mutated_witness :
    (⟨"E0_ref", zf_incar⟩ : WriteCall).incar = common_incar ∧
    dget (⟨"E0_ref", zf_incar⟩ : WriteCall).incar "EFIELD_PEAD" = none ∧
    dget (⟨"E0_ref", zf_incar⟩ : WriteCall).incar "SKIP_EDOTP" = none :=
  ((common_incar_not_mutated (fun _ => .ok ⟨0⟩) ["mp-1"] 1 []).2
    (processMaterial ⟨0⟩ "mp-1" [])
    (List.mem_singleton.mpr rfl)
    ⟨"E0_ref", zf_incar⟩
    (List.mem_singleton.mpr rfl)).1 rfl

end BiasWorkflow
